import Mathlib

/-!
Shallow embedding of the org-bridge core (src/server/org_parser.py):
timestamp formatting, heading search, entry rendering and file insertion.

Python strings are modelled as Lean `String`; the filesystem as an
`Option String` (the target file's content, `none` = file absent);
Python dicts as ordered association lists (`List (String × String)`,
insertion order, unique keys maintained by `dictSet`); exceptions as
`Except String`. The ambient UUID generator is an explicit argument.
-/

namespace OrgBridge

/-- The whitespace characters stripped by Python `str.strip()`. -/
def isPySpace (c : Char) : Bool :=
  c = ' ' || c = '\t' || c = '\n' || c = '\r' || c = '\x0b' || c = '\x0c'

/-- Python `str.strip()`. -/
def pyStrip (s : String) : String :=
  String.mk (((s.data.dropWhile isPySpace).reverse.dropWhile isPySpace).reverse)

/-- Python `str.lstrip('*')`. -/
def pyLstripStar (s : String) : String :=
  String.mk (s.data.dropWhile (· = '*'))

/-- Python `line.count('*')`: the number of asterisks anywhere in the string. -/
def countStar (s : String) : Nat :=
  s.data.count '*'

/-- Python `str.startswith(p)`. -/
def pyStartsWith (s p : String) : Bool :=
  p.data.isPrefixOf s.data

/-- Python `str.endswith(p)`. -/
def pyEndsWith (s p : String) : Bool :=
  p.data.isSuffixOf s.data

/-- Split a character list at every character satisfying `p`, keeping
empty fragments (the semantics of Python `str.split(sep)`). -/
def splitPredAux (p : Char → Bool) : List Char → List Char → List String
  | [], acc => [String.mk acc.reverse]
  | c :: rest, acc =>
    if p c then String.mk acc.reverse :: splitPredAux p rest []
    else splitPredAux p rest (c :: acc)

/-- Python `str.split('\n')`. -/
def pySplitNl (s : String) : List String :=
  splitPredAux (fun c => c = '\n') s.data []

/-- Python `str.split()` with no argument: split on whitespace runs, no empties. -/
def pySplitWs (s : String) : List String :=
  (splitPredAux (fun c => isPySpace c) s.data []).filter (fun w => w ≠ "")

/-- Python `str.replace('Z', '+00:00')` (single-character pattern, every
occurrence replaced). -/
def pyReplaceZ (s : String) : String :=
  String.mk (s.data.foldr (fun c acc => (if c = 'Z' then "+00:00".data else [c]) ++ acc) [])

/-- Python `str.upper()` (ASCII letters, as used for property keys). -/
def pyUpper (s : String) : String :=
  String.mk (s.data.map Char.toUpper)

/-- Whether `pat` occurs as a contiguous infix of `l` (Python `in` on strings). -/
def hasInfixCs : List Char → List Char → Bool
  | pat, [] => pat.isEmpty
  | pat, c :: rest => pat.isPrefixOf (c :: rest) || hasInfixCs pat rest

/-- Python `pat in s` on strings. -/
def strContains (s pat : String) : Bool :=
  hasInfixCs pat.data s.data

/-- Python `file.readlines()`: split content into lines, each keeping its
trailing newline; a final fragment without a newline is kept as-is. -/
def readlinesAux : List Char → List Char → List String
  | [], [] => []
  | [], acc => [String.mk acc.reverse]
  | '\n' :: rest, acc => String.mk (acc.reverse ++ ['\n']) :: readlinesAux rest []
  | c :: rest, acc => readlinesAux rest (c :: acc)

/-- Python `file.readlines()` on a whole content string. -/
def pyReadlines (s : String) : List String :=
  readlinesAux s.data []

/-- Python `"*" * n`. -/
def starRepeat (n : Nat) : String :=
  String.mk (List.replicate n '*')

/-- A content string Python's `str.strip()` maps to the empty (falsy) string. -/
def isWhitespaceOnly (s : String) : Bool :=
  s.data.all isPySpace

/-- Truthiness of an `Optional[str]` Python value. -/
def truthyStr : Option String → Bool
  | none => false
  | some s => s ≠ ""

/-- Truthiness of an `Optional[int]` Python value. -/
def truthyInt : Option Int → Bool
  | none => false
  | some n => n ≠ 0

/-! ### Python dict model (ordered association list, unique keys) -/

/-- Python `d[k] = v`: replace in place if the key exists, else append. -/
def dictSet : List (String × String) → String → String → List (String × String)
  | [], k, v => [(k, v)]
  | (k', v') :: rest, k, v =>
    if k' = k then (k, v) :: rest else (k', v') :: dictSet rest k v

/-- Python `d.get(k)` / `d[k]` lookup. -/
def dictLookup : List (String × String) → String → Option String
  | [], _ => none
  | (k', v') :: rest, k => if k' = k then some v' else dictLookup rest k

/-- Python `{k.upper(): v for k, v in d.items()}` (dict comprehension:
insertion order, later duplicates overwrite the value in place). -/
def upperDict (d : List (String × String)) : List (String × String) :=
  d.foldl (fun acc kv => dictSet acc (pyUpper kv.1) kv.2) []

/-! ### Model of `datetime.fromisoformat` (CPython ≤ 3.10 grammar) -/

/-- Wall-clock datetime as parsed by `datetime.fromisoformat`; the timezone
offset (minutes) is retained but never read by `strftime` wall-clock fields. -/
structure PyDateTime where
  year : Nat
  month : Nat
  day : Nat
  hour : Nat
  minute : Nat
  second : Nat
  micro : Nat
  tzMinutes : Option Int
deriving DecidableEq

/-- Numeric value of a digit list (most significant first). -/
def natOfDigits (cs : List Char) : Nat :=
  cs.foldl (fun n c => n * 10 + (c.toNat - 48)) 0

/-- Parse two decimal digits. -/
def twoDigits? (a b : Char) : Option Nat :=
  if a.isDigit && b.isDigit then some ((a.toNat - 48) * 10 + (b.toNat - 48)) else none

/-- Gregorian leap year. -/
def leapYear (y : Nat) : Bool :=
  y % 4 = 0 && (y % 100 ≠ 0 || y % 400 = 0)

/-- Days in a month. -/
def daysInMonth (y m : Nat) : Nat :=
  if m = 2 then (if leapYear y then 29 else 28)
  else if m = 4 || m = 6 || m = 9 || m = 11 then 30
  else 31

/-- Split a time string at the first `+`/`-` sign (the timezone separator). -/
def splitAtSign : List Char → List Char × Option (Char × List Char)
  | [] => ([], none)
  | c :: rest =>
    if c = '+' || c = '-' then ([], some (c, rest))
    else
      let p := splitAtSign rest
      (c :: p.1, p.2)

/-- Parse `HH[:MM[:SS[.fff|.ffffff]]]`, consuming the whole input. -/
def parseHMS (cs : List Char) : Option (Nat × Nat × Nat × Nat) :=
  match cs with
  | a :: b :: r1 =>
    match twoDigits? a b with
    | none => none
    | some h =>
      match r1 with
      | [] => some (h, 0, 0, 0)
      | ':' :: c :: d :: r2 =>
        match twoDigits? c d with
        | none => none
        | some m =>
          match r2 with
          | [] => some (h, m, 0, 0)
          | ':' :: e :: f :: r3 =>
            match twoDigits? e f with
            | none => none
            | some s =>
              match r3 with
              | [] => some (h, m, s, 0)
              | '.' :: fr =>
                if fr.length = 3 && fr.all Char.isDigit then
                  some (h, m, s, natOfDigits fr * 1000)
                else if fr.length = 6 && fr.all Char.isDigit then
                  some (h, m, s, natOfDigits fr)
                else none
              | _ => none
          | _ => none
      | _ => none
  | _ => none

/-- Parse a timezone offset body `HH:MM[:SS[.ffffff]]` to minutes. -/
def parseTzOffset (cs : List Char) : Option Nat :=
  match cs with
  | h1 :: h2 :: ':' :: m1 :: m2 :: rest =>
    match twoDigits? h1 h2, twoDigits? m1 m2 with
    | some hh, some mm =>
      let tailOk : Bool :=
        match rest with
        | [] => true
        | ':' :: s1 :: s2 :: rest2 =>
          s1.isDigit && s2.isDigit &&
            (match rest2 with
             | [] => true
             | '.' :: fr => fr.length = 6 && fr.all Char.isDigit
             | _ => false)
        | _ => false
      if tailOk && hh * 60 + mm < 1440 then some (hh * 60 + mm) else none
    | _, _ => none
  | _ => none

/-- Parse the time-of-day (and optional offset) part after the separator. -/
def parseTimeAndTz (y mo d : Nat) (tcs : List Char) : Option PyDateTime :=
  let p := splitAtSign tcs
  match parseHMS p.1 with
  | none => none
  | some (h, mi, se, mic) =>
    if h ≤ 23 && mi ≤ 59 && se ≤ 59 then
      match p.2 with
      | none => some ⟨y, mo, d, h, mi, se, mic, none⟩
      | some (sign, rest) =>
        match parseTzOffset rest with
        | none => none
        | some off =>
          some ⟨y, mo, d, h, mi, se, mic,
                some (if sign = '-' then -(off : Int) else (off : Int))⟩
    else none

/-- Model of `datetime.fromisoformat` (CPython ≤ 3.10): `YYYY-MM-DD`
optionally followed by one separator character, a time `HH[:MM[:SS[.f*]]]`
and a `±HH:MM[:SS[.ffffff]]` offset. -/
def parseIso (s : String) : Option PyDateTime :=
  match s.data with
  | y1 :: y2 :: y3 :: y4 :: c1 :: m1 :: m2 :: c2 :: d1 :: d2 :: rest =>
    if y1.isDigit && y2.isDigit && y3.isDigit && y4.isDigit &&
       c1 = '-' && m1.isDigit && m2.isDigit && c2 = '-' &&
       d1.isDigit && d2.isDigit then
      let y := natOfDigits [y1, y2, y3, y4]
      let mo := natOfDigits [m1, m2]
      let d := natOfDigits [d1, d2]
      if 1 ≤ y && 1 ≤ mo && mo ≤ 12 && 1 ≤ d && d ≤ daysInMonth y mo then
        match rest with
        | [] => some ⟨y, mo, d, 0, 0, 0, 0, none⟩
        | _ :: tcs => parseTimeAndTz y mo d tcs
      else none
    else none
  | _ => none

/-! ### `strftime` wall-clock rendering -/

/-- Zero-pad to two digits (`%m`, `%d`, `%H`, `%M`). -/
def pad2 (n : Nat) : String :=
  if n < 10 then "0" ++ toString n else toString n

/-- Zero-pad to four digits (`%Y`). -/
def pad4 (n : Nat) : String :=
  if n < 10 then "000" ++ toString n
  else if n < 100 then "00" ++ toString n
  else if n < 1000 then "0" ++ toString n
  else toString n

/-- Model of `dt.strftime('%Y-%m-%d')`: reads only wall-clock date fields. -/
def dateStr (dt : PyDateTime) : String :=
  pad4 dt.year ++ "-" ++ pad2 dt.month ++ "-" ++ pad2 dt.day

/-- Model of `dt.strftime('%H:%M')`: reads only wall-clock time fields. -/
def timeStr (dt : PyDateTime) : String :=
  pad2 dt.hour ++ ":" ++ pad2 dt.minute

/-! ### `build_repeat_suffix` and `format_org_timestamp` -/

/-- Model of `build_repeat_suffix` (org_parser.py lines 11-42). -/
def build_repeat_suffix (repeat_every : Int) (repeat_unit repeat_type : String) : String :=
  let unitAbbrev :=
    if repeat_unit = "hours" then "h"
    else if repeat_unit = "days" then "d"
    else if repeat_unit = "weeks" then "w"
    else if repeat_unit = "months" then "m"
    else if repeat_unit = "years" then "y"
    else "d"
  let typePre :=
    if repeat_type = "standard" then "+"
    else if repeat_type = "from_completion" then ".+"
    else if repeat_type = "catch_up" then "++"
    else "+"
  typePre ++ toString repeat_every ++ unitAbbrev

/-- Model of `format_org_timestamp` (org_parser.py lines 45-80): parse the ISO string
after replacing `Z` with `+00:00`, format the wall-clock fields, append the
repeat suffix when all three repeat arguments are truthy, wrap in brackets.
A failed parse is the `ValueError` raised by `datetime.fromisoformat`. -/
def format_org_timestamp (iso : String) (includeTime : Bool)
    (re : Option Int) (ru rt : Option String) : Except String String :=
  match parseIso (pyReplaceZ iso) with
  | none => .error ("Invalid isoformat string: " ++ iso)
  | some dt =>
    let base := if includeTime then dateStr dt ++ " " ++ timeStr dt else dateStr dt
    let base :=
      if truthyInt re && truthyStr ru && truthyStr rt then
        base ++ " " ++ build_repeat_suffix (re.getD 0) (ru.getD "") (rt.getD "")
      else base
    .ok ("<" ++ base ++ ">")

/-! ### `find_heading_insertion_point` -/

/-- Keep the words up to and including the last word not containing a colon
(the backward scan of org_parser.py lines 107-114); `none` when every word
contains a colon (the `continue` case). -/
def keepThroughLastNonColon : List String → Option (List String)
  | [] => none
  | w :: ws =>
    match keepThroughLastNonColon ws with
    | some rest => some (w :: rest)
    | none => if strContains w ":" then none else some [w]

/-- Extract the heading text of a stripped line: drop the leading asterisks,
strip, and drop a trailing tag suffix (org_parser.py lines 102-114). `none`
models the `continue` that skips a line whose words all contain colons. -/
def extractHeadingText (line : String) : Option String :=
  let ht := pyStrip (pyLstripStar line)
  if strContains ht ":" && pyEndsWith ht ":" then
    (keepThroughLastNonColon (pySplitWs ht)).map (fun ws => String.intercalate " " ws)
  else some ht

/-- Offset of the first subsequent line whose stripped text starts with `*`
and whose total asterisk count is ≤ `level` (org_parser.py lines 123-131);
the list length if none. -/
def insertionOffset (level : Nat) : List String → Nat
  | [] => 0
  | l :: ls =>
    let s := pyStrip l
    if pyStartsWith s "*" && countStar s ≤ level then 0
    else insertionOffset level ls + 1

/-- The scan of `find_heading_insertion_point` with the running line index. -/
def findAux (target : String) : List String → Nat → Option (Nat × Nat)
  | [], _ => none
  | l :: ls, i =>
    let s := pyStrip l
    if pyStartsWith s "*" then
      match extractHeadingText s with
      | some ht =>
        if ht = target then
          let lvl := countStar s
          some (i + 1 + insertionOffset lvl ls, lvl)
        else findAux target ls (i + 1)
      | none => findAux target ls (i + 1)
    else findAux target ls (i + 1)

/-- Model of `find_heading_insertion_point` (org_parser.py lines 83-138). -/
def find_heading_insertion_point (lines : List String) (target : String) :
    Option (Nat × Nat) :=
  findAux (pyStrip target) lines 0

/-! ### The entry renderer and `append_todo_to_file` -/

/-- The structured fields handed to `append_todo_to_file` (its keyword
arguments, minus the path; the UUID generator is passed separately). -/
structure Fields where
  title : String
  state : String := "TODO"
  priority : Option String := none
  tags : List String := []
  scheduled : Option String := none
  deadline : Option String := none
  include_scheduled_time : Bool := false
  include_deadline_time : Bool := false
  is_recurring : Bool := false
  recurring_field : Option String := none
  repeat_every : Option Int := none
  repeat_unit : Option String := none
  repeat_type : Option String := none
  properties : List (String × String) := []
  body : Option String := none
  heading : Option String := none
deriving DecidableEq

/-- The `todo_parts` list (org_parser.py lines 188-200 and 291-303). -/
def todoParts (markers : String) (f : Fields) : List String :=
  [markers ++ " " ++ f.state]
  ++ (if truthyStr f.priority then ["[#" ++ f.priority.getD "" ++ "]"] else [])
  ++ [f.title]
  ++ (if f.tags ≠ [] then [":" ++ String.intercalate ":" f.tags ++ ":"] else [])

/-- Python `" ".join(todo_parts)`: the heading line of the rendered entry. -/
def buildTodoLine (markers : String) (f : Fields) : String :=
  String.intercalate " " (todoParts markers f)

/-- One formatted timestamp of `append_todo_to_file` (lines 215-231):
a falsy date gives no timestamp; a recurring field passes the repeat
arguments to `format_org_timestamp`, the other passes `None`s. -/
def tsFor (dateOpt : Option String) (includeTime : Bool) (recurHere : Bool)
    (f : Fields) : Except String (Option String) :=
  match dateOpt with
  | none => .ok none
  | some s =>
    if s = "" then .ok none
    else if recurHere then
      (format_org_timestamp s includeTime f.repeat_every f.repeat_unit f.repeat_type).map some
    else
      (format_org_timestamp s includeTime none none none).map some

/-- The two formatted timestamps of `append_todo_to_file` (lines 204-231). -/
def computeTimestamps (f : Fields) : Except String (Option String × Option String) := do
  let sts ← tsFor f.scheduled f.include_scheduled_time
    (f.is_recurring && f.recurring_field == some "scheduled") f
  let dts ← tsFor f.deadline f.include_deadline_time
    (f.is_recurring && f.recurring_field == some "deadline") f
  return (sts, dts)

/-- The scheduling line(s) built from the two timestamps (lines 233-239). -/
def schedLinesOf : Option String → Option String → List String
  | some s, some d => ["SCHEDULED: " ++ s ++ " DEADLINE: " ++ d]
  | some s, none => ["SCHEDULED: " ++ s]
  | none, some d => ["DEADLINE: " ++ d]
  | none, none => []

/-- The properties drawer lines (org_parser.py lines 241-255): inject the
generated UUID under `"ID"` into the caller's mapping, upper-case the keys,
and render `:PROPERTIES:` / `:KEY: value` / `:END:`. -/
def drawerLines (props : List (String × String)) (uuid : String) : List String :=
  let up := upperDict (dictSet props "ID" uuid)
  ":PROPERTIES:" :: (up.map (fun kv => ":" ++ kv.1 ++ ": " ++ kv.2) ++ [":END:"])

/-- The `additional_lines` list (scheduling line then properties drawer), or the
parse error raised while formatting a timestamp. -/
def additionalLinesE (f : Fields) (uuid : String) : Except String (List String) := do
  let ts ← computeTimestamps f
  return schedLinesOf ts.1 ts.2 ++ drawerLines f.properties uuid

/-- The full rendered entry text at the given markers (lines 257-264 and
307-314): heading line, newline-joined additional lines, blank line and
stripped body when truthy; no trailing newline. -/
def renderTodoTextWith (markers : String) (f : Fields) (al : List String) : String :=
  let base := buildTodoLine markers f
  let base := if al ≠ [] then base ++ "\n" ++ String.intercalate "\n" al else base
  if truthyStr f.body then base ++ "\n\n" ++ pyStrip (f.body.getD "") else base

/-- The block written in the heading-not-found path (lines 356-377):
a level-1 heading line, a blank line, and the level-2 entry, built by
string concatenation exactly as the Python does. -/
def headingNotFoundText (h : String) (f : Fields) (al : List String) : String :=
  let t := "* " ++ h ++ "\n\n** " ++ f.state
  let t := if truthyStr f.priority then t ++ " [#" ++ f.priority.getD "" ++ "]" else t
  let t := t ++ " " ++ f.title
  let t := if f.tags ≠ [] then t ++ " :" ++ String.intercalate ":" f.tags ++ ":" else t
  let t := if al ≠ [] then t ++ "\n" ++ String.intercalate "\n" al else t
  if truthyStr f.body then t ++ "\n\n" ++ pyStrip (f.body.getD "") else t

/-- The spacing-aware splice of the entry's lines at the insertion point
(org_parser.py lines 319-350). -/
def spliceLines (lines : List String) (ip : Nat) (tl : List String) : List String :=
  let needBefore := if ip > 0 then pyStrip (lines.getD (ip - 1) "") ≠ "" else true
  let needAfter := if ip < lines.length then pyStrip (lines.getD ip "") ≠ "" else true
  lines.take ip
    ++ (if needBefore then ["\n"] else [])
    ++ tl.map (fun l => l ++ "\n")
    ++ (if needAfter then ["\n"] else [])
    ++ lines.drop ip

/-- The observable outcome of one `append_todo_to_file` call: the file's
content afterwards, the returned pair (or raised error), and the state of
the caller-owned properties mapping after the call. -/
structure CallOutcome where
  file : Option String
  result : Except String (String × String)
  props : List (String × String)

/-- Model of `append_todo_to_file` (org_parser.py lines 141-413). The timestamps are
formatted before any filesystem access, so a parse error leaves the file
untouched; on success the file is written per mode and
`(todo_text, generated_uuid)` is returned. A non-empty caller properties
dict is mutated in place by `properties["ID"] = generated_uuid`; a falsy
one is replaced by a fresh dict and left unchanged. -/
def append_todo_to_file (fileContent : Option String) (generated_uuid : String)
    (f : Fields) : CallOutcome :=
  match additionalLinesE f generated_uuid with
  | .error e => { file := fileContent, result := .error e, props := f.properties }
  | .ok al =>
    let todoText := renderTodoTextWith "*" f al
    let propsAfter :=
      if f.properties = [] then f.properties else dictSet f.properties "ID" generated_uuid
    let newFile : String :=
      if truthyStr f.heading then
        let h := f.heading.getD ""
        let lines := match fileContent with
          | some c => pyReadlines c
          | none => []
        match find_heading_insertion_point lines h with
        | some (ip, lvl) =>
          let corrected := renderTodoTextWith (starRepeat (lvl + 1)) f al
          String.join (spliceLines lines ip (pySplitNl corrected))
        | none =>
          (fileContent.getD "") ++ "\n" ++ headingNotFoundText h f al ++ "\n"
      else
        match fileContent with
        | some c =>
          if isWhitespaceOnly c then todoText ++ "\n"
          else if pyEndsWith c "\n\n" then c ++ todoText ++ "\n"
          else if pyEndsWith c "\n" then c ++ "\n" ++ todoText ++ "\n"
          else c ++ "\n\n" ++ todoText ++ "\n"
        | none => todoText ++ "\n"
    { file := some newFile, result := .ok (todoText, generated_uuid), props := propsAfter }

/-! ### Spec-side definitions used to state the claims -/

/-- The first line of a rendered entry as the spec words it: markers, space,
state token, `[#P]` iff priority set, title, `:tag1:tag2:` suffix iff tags
non-empty, space-separated in that fixed order. -/
def specHeadingLine (markers : String) (f : Fields) : String :=
  markers ++ " " ++ f.state
  ++ (if truthyStr f.priority then " " ++ "[#" ++ f.priority.getD "" ++ "]" else "")
  ++ " " ++ f.title
  ++ (if f.tags ≠ [] then " " ++ ":" ++ String.intercalate ":" f.tags ++ ":" else "")

/-- A line whose stripped text is a heading whose extracted heading text
equals the (already stripped) target. -/
def LineMatches (target l : String) : Prop :=
  pyStartsWith (pyStrip l) "*" = true ∧ extractHeadingText (pyStrip l) = some target

/-- A heading line at which the forward scan of the insertion point stops:
it starts with a marker and its asterisk count is at most `lvl`. -/
def IsBoundary (lvl : Nat) (l : String) : Prop :=
  pyStartsWith (pyStrip l) "*" = true ∧ countStar (pyStrip l) ≤ lvl

/-- The count of LEADING nesting markers of a stripped line — the level the
spec claims `find_heading_insertion_point` computes. -/
def leadingMarkerCount (l : String) : Nat :=
  ((pyStrip l).data.takeWhile (fun c => c = '*')).length

/-- The value of the last entry whose upper-cased key equals `key` (the
value that survives the upper-casing dict comprehension). -/
def lastUpperVal (key : String) : List (String × String) → Option String
  | [] => none
  | kv :: rest =>
    match lastUpperVal key rest with
    | some w => some w
    | none => if pyUpper kv.1 = key then some kv.2 else none

/-! ### Helper lemmas -/

theorem pyEndsWith_append (s t : String) : pyEndsWith (s ++ t) t = true := by
  simp [pyEndsWith, List.isSuffixOf_iff_suffix, List.suffix_append]

theorem pyEndsWith_nl_of_nlnl {c : String} (h : pyEndsWith c "\n\n" = true) :
    pyEndsWith c "\n" = true := by
  simp only [pyEndsWith, List.isSuffixOf_iff_suffix] at h ⊢
  exact List.IsSuffix.trans ⟨['\n'], rfl⟩ h

theorem pyStartsWith_append (s t : String) : pyStartsWith (s ++ t) s = true := by
  simp [pyStartsWith, List.isPrefixOf_iff_prefix, List.prefix_append]

theorem pyStartsWith_refl (s : String) : pyStartsWith s s = true := by
  simp [pyStartsWith, List.isPrefixOf_iff_prefix]

/-- Claim C7 (confirmed). For every field set, the heading line built by the
renderer is the nesting markers, a space, the state token, `[#P]` iff a
priority is set, the title, and a `:tag1:tag2:` suffix iff tags are
non-empty, space-separated in that fixed order; the rendered entry text
starts with that line, which is non-empty and begins with the markers
followed by the state token; the spec's scenario renders to
`* TODO [#A] Pay rent :home:bills:`. -/
theorem heading_line_format (markers : String) (f : Fields) (al : List String) :
    buildTodoLine markers f = specHeadingLine markers f
    ∧ pyStartsWith (renderTodoTextWith markers f al) (buildTodoLine markers f) = true
    ∧ buildTodoLine markers f ≠ ""
    ∧ pyStartsWith (buildTodoLine markers f) (markers ++ " " ++ f.state) = true
    ∧ buildTodoLine "*"
        { title := "Pay rent", state := "TODO", priority := some "A",
          tags := ["home", "bills"] } = "* TODO [#A] Pay rent :home:bills:" := by
  have hmain : buildTodoLine markers f = specHeadingLine markers f := by
    apply String.ext
    unfold buildTodoLine todoParts specHeadingLine
    by_cases hp : truthyStr f.priority = true <;> by_cases ht : f.tags ≠ [] <;>
      simp [hp, ht, String.intercalate, String.intercalate.go, List.append_assoc]
  have h4 : pyStartsWith (buildTodoLine markers f) (markers ++ " " ++ f.state) = true := by
    rw [hmain]
    unfold specHeadingLine
    by_cases hp : truthyStr f.priority = true <;> by_cases ht : f.tags ≠ [] <;>
      simp [hp, ht, pyStartsWith, List.isPrefixOf_iff_prefix, List.append_assoc]
  refine ⟨hmain, ?_, ?_, h4, by decide⟩
  · unfold renderTodoTextWith
    by_cases ha : al ≠ [] <;> by_cases hb : truthyStr f.body = true <;>
      simp [ha, hb, pyStartsWith, List.isPrefixOf_iff_prefix, List.append_assoc,
        List.prefix_refl]
  · intro h0
    rw [h0] at h4
    have hsp : (" " : String).data = [' '] := rfl
    simp [pyStartsWith, List.isPrefixOf_iff_prefix, List.prefix_nil, hsp] at h4

/-- Claim C10 (confirmed). When formatting a scheduled or deadline string
fails with a parse error, `append_todo_to_file` returns that error
unmodified, the target file is neither created nor modified, and the
caller's properties mapping is untouched (timestamp parsing happens before
any filesystem access or property mutation). -/
theorem parse_error_leaves_file_untouched (content : Option String)
    (uuid : String) (f : Fields) (e : String)
    (h : additionalLinesE f uuid = .error e) :
    append_todo_to_file content uuid f =
      { file := content, result := .error e, props := f.properties }
    ∧ computeTimestamps f = .error e := by
  constructor
  · unfold append_todo_to_file
    rw [h]
  · unfold additionalLinesE at h
    cases hts : computeTimestamps f with
    | error e2 =>
      rw [hts] at h
      simp only [Bind.bind, Except.bind] at h
      exact congrArg Except.error (Except.error.injEq .. ▸ h).symm ▸ (by
        cases h; rfl)
    | ok ts =>
      rw [hts] at h
      simp only [Bind.bind, Except.bind, pure, Except.pure] at h
      cases h

/-- Witness for C10 at a concrete malformed date. -/
theorem parse_error_leaves_file_untouched_witness :
    additionalLinesE { title := "x", scheduled := some "bogus" } "U" =
      .error "Invalid isoformat string: bogus"
    ∧ append_todo_to_file (some "keep") "U" { title := "x", scheduled := some "bogus" } =
        { file := some "keep", result := .error "Invalid isoformat string: bogus",
          props := [] }
    ∧ computeTimestamps { title := "x", scheduled := some "bogus" } =
        .error "Invalid isoformat string: bogus" :=
  ⟨rfl,
    (parse_error_leaves_file_untouched (some "keep") "U"
      { title := "x", scheduled := some "bogus" } _ rfl).1,
    (parse_error_leaves_file_untouched (some "keep") "U"
      { title := "x", scheduled := some "bogus" } _ rfl).2⟩

/-- Claim C6 (confirmed). Plain-append mode: an absent or whitespace-only file
becomes exactly the rendered entry plus one newline; content ending in two
or more newlines gets entry + newline appended; content ending in exactly
one newline gets blank line + entry + newline; content not ending in a
newline gets two newlines + entry + newline; and the resulting file always
ends with a newline. -/
theorem plain_append_modes (content : Option String) (c : String)
    (uuid : String) (f : Fields) (al : List String)
    (hh : truthyStr f.heading = false)
    (hal : additionalLinesE f uuid = .ok al) :
    (content = none →
      (append_todo_to_file content uuid f).file =
        some (renderTodoTextWith "*" f al ++ "\n"))
    ∧ (content = some c → isWhitespaceOnly c = true →
        (append_todo_to_file content uuid f).file =
          some (renderTodoTextWith "*" f al ++ "\n"))
    ∧ (content = some c → isWhitespaceOnly c = false → pyEndsWith c "\n\n" = true →
        (append_todo_to_file content uuid f).file =
          some (c ++ renderTodoTextWith "*" f al ++ "\n"))
    ∧ (content = some c → isWhitespaceOnly c = false → pyEndsWith c "\n\n" = false →
        pyEndsWith c "\n" = true →
        (append_todo_to_file content uuid f).file =
          some (c ++ "\n" ++ renderTodoTextWith "*" f al ++ "\n"))
    ∧ (content = some c → isWhitespaceOnly c = false → pyEndsWith c "\n" = false →
        (append_todo_to_file content uuid f).file =
          some (c ++ "\n\n" ++ renderTodoTextWith "*" f al ++ "\n"))
    ∧ ((append_todo_to_file content uuid f).file.map
        (fun out => pyEndsWith out "\n")) = some true := by
  unfold append_todo_to_file
  rw [hal]
  simp only [hh, Bool.false_eq_true, if_false]
  refine ⟨?_, ?_, ?_, ?_, ?_, ?_⟩
  · rintro rfl
    rfl
  · rintro rfl hw
    simp [hw]
  · rintro rfl hw h2
    simp [hw, h2]
  · rintro rfl hw h2 h1
    simp [hw, h2, h1]
  · rintro rfl hw h1
    have h2 : pyEndsWith c "\n\n" = false := by
      cases hx : pyEndsWith c "\n\n" with
      | false => rfl
      | true => rw [pyEndsWith_nl_of_nlnl hx] at h1; cases h1
    simp [hw, h2, h1]
  · cases content with
    | none => simp [pyEndsWith_append]
    | some c0 =>
      by_cases hw : isWhitespaceOnly c0 = true
      · simp [hw, pyEndsWith_append]
      · by_cases h2 : pyEndsWith c0 "\n\n" = true <;>
          by_cases h1 : pyEndsWith c0 "\n" = true <;>
          simp [hw, h2, h1, pyEndsWith_append]

/-- Witness for C6 at the spec's scenario: a file with a single trailing
newline gets one blank line, the new entry, and a trailing newline. -/
theorem plain_append_modes_witness :
    truthyStr (Fields.heading { title := "new" }) = false
    ∧ additionalLinesE { title := "new" } "U" = .ok [":PROPERTIES:", ":ID: U", ":END:"]
    ∧ (append_todo_to_file (some "* TODO old\n") "U" { title := "new" }).file =
        some "* TODO old\n\n* TODO new\n:PROPERTIES:\n:ID: U\n:END:\n" := by
  refine ⟨rfl, rfl, ?_⟩
  have h := plain_append_modes (some "* TODO old\n") "* TODO old\n" "U"
    { title := "new" } [":PROPERTIES:", ":ID: U", ":END:"] rfl rfl
  exact (h.2.2.2.1 rfl (by decide) (by decide) (by decide)).trans (by decide)

/-- Claim C8 (confirmed). For every input string accepted by the ISO parser
(after the `Z` → `+00:00` replacement), the formatted timestamp is
`YYYY-MM-DD` without the include-time flag and `YYYY-MM-DD HH:MM` with it,
computed from the wall-clock fields only (the timezone offset is ignored);
the recurrence suffix `<type-prefix><every><unit-letter>` is appended when
all three repeat arguments are truthy, with hours→h, days→d, weeks→w,
months→m, years→y (unrecognized → d) and standard→`+`,
from_completion→`.+`, catch_up→`++` (unrecognized → `+`); the whole
timestamp is wrapped in angle brackets. -/
theorem timestamp_format (s : String) (dt : PyDateTime) (it : Bool)
    (reo : Option Int) (ruo rto : Option String) (n : Int) (u t : String)
    (o : Option Int)
    (h : parseIso (pyReplaceZ s) = some dt) :
    format_org_timestamp s it reo ruo rto =
      .ok ("<" ++ (if it then dateStr dt ++ " " ++ timeStr dt else dateStr dt)
        ++ (if truthyInt reo && truthyStr ruo && truthyStr rto then
              " " ++ build_repeat_suffix (reo.getD 0) (ruo.getD "") (rto.getD "")
            else "") ++ ">")
    ∧ dateStr dt = pad4 dt.year ++ "-" ++ pad2 dt.month ++ "-" ++ pad2 dt.day
    ∧ timeStr dt = pad2 dt.hour ++ ":" ++ pad2 dt.minute
    ∧ dateStr { dt with tzMinutes := o } = dateStr dt
    ∧ timeStr { dt with tzMinutes := o } = timeStr dt
    ∧ build_repeat_suffix n u t =
        (if t = "standard" then "+"
         else if t = "from_completion" then ".+"
         else if t = "catch_up" then "++" else "+")
        ++ toString n
        ++ (if u = "hours" then "h"
            else if u = "days" then "d"
            else if u = "weeks" then "w"
            else if u = "months" then "m"
            else if u = "years" then "y" else "d") := by
  refine ⟨?_, rfl, rfl, rfl, rfl, rfl⟩
  unfold format_org_timestamp
  rw [h]
  by_cases hb : (truthyInt reo && truthyStr ruo && truthyStr rto) = true <;>
    [skip; skip] <;>
    · apply congrArg Except.ok
      apply String.ext
      simp [hb, List.append_assoc]

/-- Witness for C8: the spec's scenario string, with a timezone suffix. -/
theorem timestamp_format_witness :
    parseIso (pyReplaceZ "2025-01-20T14:30:00Z") =
      some ⟨2025, 1, 20, 14, 30, 0, 0, some 0⟩
    ∧ format_org_timestamp "2025-01-20T14:30:00Z" true none none none =
        .ok "<2025-01-20 14:30>"
    ∧ build_repeat_suffix 2 "weeks" "from_completion" = ".+2w" := by
  have h := timestamp_format "2025-01-20T14:30:00Z" ⟨2025, 1, 20, 14, 30, 0, 0, some 0⟩
    true none none none 2 "weeks" "from_completion" none (by decide)
  exact ⟨by decide, h.1.trans (by rfl), (h.2.2.2.2.2).trans (by rfl)⟩

/-- Unpack a successful `computeTimestamps` into its two `tsFor` calls. -/
theorem computeTimestamps_ok (f : Fields) (sts dts : Option String)
    (h : computeTimestamps f = .ok (sts, dts)) :
    tsFor f.scheduled f.include_scheduled_time
      (f.is_recurring && f.recurring_field == some "scheduled") f = .ok sts
    ∧ tsFor f.deadline f.include_deadline_time
        (f.is_recurring && f.recurring_field == some "deadline") f = .ok dts := by
  unfold computeTimestamps at h
  cases hs : tsFor f.scheduled f.include_scheduled_time
      (f.is_recurring && f.recurring_field == some "scheduled") f with
  | error e => rw [hs] at h; simp [Bind.bind, Except.bind] at h
  | ok v1 =>
    cases hd : tsFor f.deadline f.include_deadline_time
        (f.is_recurring && f.recurring_field == some "deadline") f with
    | error e => rw [hs, hd] at h; simp [Bind.bind, Except.bind] at h
    | ok v2 =>
      rw [hs, hd] at h
      simp only [Bind.bind, Except.bind, pure, Except.pure, Except.ok.injEq,
        Prod.mk.injEq] at h
      obtain ⟨h1, h2⟩ := h
      subst h1
      subst h2
      exact ⟨rfl, rfl⟩

/-- Claim C9 (confirmed). The scheduling line: one combined
`SCHEDULED: <ts> DEADLINE: <ts>` line when both timestamps exist, a single
keyword line when exactly one exists, nothing when neither does; the
rendered entry's additional lines start with these lines; a falsy
scheduled/deadline field yields no timestamp; and the recurrence arguments
are passed exactly to the timestamp named by `recurring_field` when
`is_recurring` holds, the other timestamp being formatted without them. -/
theorem scheduling_line (f : Fields) (uuid : String) (sts dts : Option String)
    (s d sch dl : String)
    (hts : computeTimestamps f = .ok (sts, dts)) :
    (sts = some s → dts = some d →
      schedLinesOf sts dts = ["SCHEDULED: " ++ s ++ " DEADLINE: " ++ d])
    ∧ (sts = some s → dts = none → schedLinesOf sts dts = ["SCHEDULED: " ++ s])
    ∧ (sts = none → dts = some d → schedLinesOf sts dts = ["DEADLINE: " ++ d])
    ∧ (sts = none → dts = none → schedLinesOf sts dts = [])
    ∧ additionalLinesE f uuid =
        .ok (schedLinesOf sts dts ++ drawerLines f.properties uuid)
    ∧ (truthyStr f.scheduled = false → sts = none)
    ∧ (truthyStr f.deadline = false → dts = none)
    ∧ (f.scheduled = some sch → sch ≠ "" →
        (f.is_recurring && f.recurring_field == some "scheduled") = true →
        (format_org_timestamp sch f.include_scheduled_time
          f.repeat_every f.repeat_unit f.repeat_type).map some = .ok sts)
    ∧ (f.scheduled = some sch → sch ≠ "" →
        (f.is_recurring && f.recurring_field == some "scheduled") = false →
        (format_org_timestamp sch f.include_scheduled_time none none none).map some
          = .ok sts)
    ∧ (f.deadline = some dl → dl ≠ "" →
        (f.is_recurring && f.recurring_field == some "deadline") = true →
        (format_org_timestamp dl f.include_deadline_time
          f.repeat_every f.repeat_unit f.repeat_type).map some = .ok dts)
    ∧ (f.deadline = some dl → dl ≠ "" →
        (f.is_recurring && f.recurring_field == some "deadline") = false →
        (format_org_timestamp dl f.include_deadline_time none none none).map some
          = .ok dts) := by
  have hun := computeTimestamps_ok f sts dts hts
  refine ⟨?_, ?_, ?_, ?_, ?_, ?_, ?_, ?_, ?_, ?_, ?_⟩
  · rintro rfl rfl; rfl
  · rintro rfl rfl; rfl
  · rintro rfl rfl; rfl
  · rintro rfl rfl; rfl
  · unfold additionalLinesE
    rw [hts]
    rfl
  · intro hf
    have h1 := hun.1
    cases hsc : f.scheduled with
    | none => rw [hsc] at h1; unfold tsFor at h1; exact (Except.ok.injEq .. ▸ h1).symm
    | some s0 =>
      rw [hsc] at hf
      simp only [truthyStr, ne_eq, decide_eq_false_iff_not, not_not] at hf
      rw [hsc] at h1
      simp only [tsFor, hf, if_pos] at h1
      exact (Except.ok.injEq .. ▸ h1).symm
  · intro hf
    have h1 := hun.2
    cases hdl : f.deadline with
    | none => rw [hdl] at h1; unfold tsFor at h1; exact (Except.ok.injEq .. ▸ h1).symm
    | some d0 =>
      rw [hdl] at hf
      simp only [truthyStr, ne_eq, decide_eq_false_iff_not, not_not] at hf
      rw [hdl] at h1
      simp only [tsFor, hf, if_pos] at h1
      exact (Except.ok.injEq .. ▸ h1).symm
  · intro hsc hne hrec
    have h1 := hun.1
    rw [hsc, hrec] at h1
    simp only [tsFor, hne, if_neg, if_pos] at h1
    simpa using h1
  · intro hsc hne hrec
    have h1 := hun.1
    rw [hsc, hrec] at h1
    simp only [tsFor, hne, if_neg] at h1
    simpa using h1
  · intro hdl hne hrec
    have h1 := hun.2
    rw [hdl, hrec] at h1
    simp only [tsFor, hne, if_neg, if_pos] at h1
    simpa using h1
  · intro hdl hne hrec
    have h1 := hun.2
    rw [hdl, hrec] at h1
    simp only [tsFor, hne, if_neg] at h1
    simpa using h1

/-- Witness for C9 at the spec's recurring-deadline scenario. -/
theorem scheduling_line_witness :
    computeTimestamps
      { title := "x", deadline := some "2025-02-03", is_recurring := true,
        recurring_field := some "deadline", repeat_every := some 2,
        repeat_unit := some "weeks", repeat_type := some "from_completion" } =
      .ok (none, some "<2025-02-03 .+2w>")
    ∧ schedLinesOf none (some "<2025-02-03 .+2w>") = ["DEADLINE: <2025-02-03 .+2w>"] := by
  have h := scheduling_line
    { title := "x", deadline := some "2025-02-03", is_recurring := true,
      recurring_field := some "deadline", repeat_every := some 2,
      repeat_unit := some "weeks", repeat_type := some "from_completion" }
    "U" none (some "<2025-02-03 .+2w>") "" "<2025-02-03 .+2w>" "" "2025-02-03" rfl
  exact ⟨rfl, h.2.2.1 rfl rfl⟩

/-! ### Characterization of the heading search (claim C3) -/

theorem insertionOffset_le (lvl : Nat) :
    ∀ ls : List String, insertionOffset lvl ls ≤ ls.length := by
  intro ls
  induction ls with
  | nil => simp [insertionOffset]
  | cons l ls ih =>
    by_cases hb : (pyStartsWith (pyStrip l) "*" && decide (countStar (pyStrip l) ≤ lvl)) = true
    · simp [insertionOffset, hb]
    · rw [insertionOffset, if_neg hb]
      simp only [List.length_cons]
      omega

theorem insertionOffset_not_boundary (lvl : Nat) :
    ∀ (ls : List String) (j : Nat), j < insertionOffset lvl ls →
      ¬ IsBoundary lvl (ls.getD j "") := by
  intro ls
  induction ls with
  | nil => intro j hj; simp [insertionOffset] at hj
  | cons l ls ih =>
    intro j hj
    by_cases hb : (pyStartsWith (pyStrip l) "*" && decide (countStar (pyStrip l) ≤ lvl)) = true
    · simp [insertionOffset, hb] at hj
    · rw [insertionOffset, if_neg hb] at hj
      cases j with
      | zero =>
        simp only [List.getD_cons_zero]
        intro hc
        exact hb (by simp [IsBoundary] at hc; simp [hc.1, hc.2])
      | succ j' =>
        simp only [List.getD_cons_succ]
        exact ih j' (by omega)

theorem insertionOffset_boundary (lvl : Nat) :
    ∀ ls : List String, insertionOffset lvl ls < ls.length →
      IsBoundary lvl (ls.getD (insertionOffset lvl ls) "") := by
  intro ls
  induction ls with
  | nil => intro h; simp [insertionOffset] at h
  | cons l ls ih =>
    intro h
    by_cases hb : (pyStartsWith (pyStrip l) "*" && decide (countStar (pyStrip l) ≤ lvl)) = true
    · rw [insertionOffset, if_pos hb]
      simp only [List.getD_cons_zero]
      simp only [Bool.and_eq_true, decide_eq_true_eq] at hb
      exact ⟨hb.1, hb.2⟩
    · rw [insertionOffset, if_neg hb] at h ⊢
      simp only [List.getD_cons_succ]
      exact ih (by simpa using Nat.lt_of_succ_lt_succ (by simpa using h))

theorem getD_drop (l : List String) (n t : Nat) :
    (l.drop n).getD t "" = l.getD (n + t) "" := by
  simp [List.getD_eq_getElem?_getD, List.getElem?_drop]

theorem findAux_char (target : String) :
    ∀ (lines : List String) (i ip lvl : Nat),
      findAux target lines i = some (ip, lvl) →
      ∃ j, j < lines.length ∧ LineMatches target (lines.getD j "")
        ∧ (∀ k, k < j → ¬ LineMatches target (lines.getD k ""))
        ∧ lvl = countStar (pyStrip (lines.getD j ""))
        ∧ ip = i + j + 1 + insertionOffset lvl (lines.drop (j + 1)) := by
  intro lines
  induction lines with
  | nil => intro i ip lvl h; cases h
  | cons l ls ih =>
    intro i ip lvl h
    by_cases hs : pyStartsWith (pyStrip l) "*" = true
    · cases he : extractHeadingText (pyStrip l) with
      | none =>
        rw [findAux] at h
        simp only [hs, if_true, he] at h
        obtain ⟨j, hj, hm, hmin, hlvl, hip⟩ := ih (i + 1) ip lvl h
        refine ⟨j + 1, by simpa using hj, by simpa using hm, ?_, by simpa using hlvl, ?_⟩
        · intro k hk
          cases k with
          | zero =>
            simp only [List.getD_cons_zero]
            intro hc
            have h2 := hc.2
            rw [he] at h2
            exact absurd h2 (by simp)
          | succ k' =>
            simp only [List.getD_cons_succ]
            exact hmin k' (by omega)
        · rw [hip, List.drop_succ_cons]
          omega
      | some ht =>
        by_cases hteq : ht = target
        · subst hteq
          rw [findAux] at h
          simp only [hs, if_true, he, if_pos] at h
          simp only [Option.some.injEq, Prod.mk.injEq] at h
          obtain ⟨hip, hlvl⟩ := h
          subst hlvl
          refine ⟨0, by simp, ⟨hs, by simpa using he⟩, ?_, by simp, ?_⟩
          · intro k hk
            exact absurd hk (Nat.not_lt_zero k)
          · simp only [List.getD_cons_zero, List.drop_succ_cons, List.drop_zero]
            omega
        · rw [findAux] at h
          simp only [hs, if_true, he, hteq, if_neg, if_false] at h
          obtain ⟨j, hj, hm, hmin, hlvl, hip⟩ := ih (i + 1) ip lvl h
          refine ⟨j + 1, by simpa using hj, by simpa using hm, ?_, by simpa using hlvl, ?_⟩
          · intro k hk
            cases k with
            | zero =>
              simp only [List.getD_cons_zero]
              intro hc
              have h2 := hc.2
              rw [he] at h2
              exact hteq (by simpa using h2)
            | succ k' =>
              simp only [List.getD_cons_succ]
              exact hmin k' (by omega)
          · rw [hip, List.drop_succ_cons]
            omega
    · rw [findAux] at h
      simp only [hs, if_false] at h
      obtain ⟨j, hj, hm, hmin, hlvl, hip⟩ := ih (i + 1) ip lvl h
      refine ⟨j + 1, by simpa using hj, by simpa using hm, ?_, by simpa using hlvl, ?_⟩
      · intro k hk
        cases k with
        | zero =>
          simp only [List.getD_cons_zero]
          intro hc
          exact hs hc.1
        | succ k' =>
          simp only [List.getD_cons_succ]
          exact hmin k' (by omega)
      · rw [hip, List.drop_succ_cons]
        omega

/-- Claim C3 (corrected): counterexample. The matched heading's level is NOT
the count of leading markers: on the heading line `* Tasks * more` (one
leading marker, one interior asterisk) the search returns level 2, the
total number of asterisks in the line, not 1. -/
theorem level_counts_all_stars :
    find_heading_insertion_point ["* Tasks * more\n"] "Tasks * more" = some (1, 2)
    ∧ leadingMarkerCount "* Tasks * more\n" = 1
    ∧ (2 : Nat) ≠ 1 :=
  ⟨by decide, by decide, by decide⟩

/-- Claim C3 (amended). Heading search matches the first line whose stripped
text starts with a marker and whose extracted heading text (marker prefix
and trailing tag suffix stripped, whitespace-trimmed) equals the trimmed
target; the matched heading's level is the count of ALL asterisk characters
in the stripped line (not only leading ones); the insertion index is the
index of the first subsequent line that starts with a marker and whose
total asterisk count is ≤ the matched level, or end-of-file if none; and
the entry spliced into the file is re-rendered at level matched-level + 1. -/
theorem heading_search_characterization (lines : List String) (target : String)
    (ip lvl : Nat) (c uuid : String) (f : Fields) (al : List String)
    (h : find_heading_insertion_point lines target = some (ip, lvl))
    (hc : pyReadlines c = lines)
    (hh : f.heading = some target) (hne : target ≠ "")
    (hal : additionalLinesE f uuid = .ok al) :
    (∃ j, j < lines.length ∧ LineMatches (pyStrip target) (lines.getD j "")
      ∧ (∀ k, k < j → ¬ LineMatches (pyStrip target) (lines.getD k ""))
      ∧ lvl = countStar (pyStrip (lines.getD j ""))
      ∧ j < ip ∧ ip ≤ lines.length
      ∧ (∀ k, j < k → k < ip → ¬ IsBoundary lvl (lines.getD k ""))
      ∧ (ip < lines.length → IsBoundary lvl (lines.getD ip "")))
    ∧ (append_todo_to_file (some c) uuid f).file =
        some (String.join (spliceLines lines ip
          (pySplitNl (renderTodoTextWith (starRepeat (lvl + 1)) f al)))) := by
  constructor
  · obtain ⟨j, hj, hm, hmin, hlvl, hip⟩ :=
      findAux_char (pyStrip target) lines 0 ip lvl h
    have hoffle := insertionOffset_le lvl (lines.drop (j + 1))
    rw [List.length_drop] at hoffle
    refine ⟨j, hj, hm, hmin, hlvl, by omega, by omega, ?_, ?_⟩
    · intro k hk1 hk2
      have hlt : k - (j + 1) < insertionOffset lvl (lines.drop (j + 1)) := by omega
      have hnb := insertionOffset_not_boundary lvl (lines.drop (j + 1)) (k - (j + 1)) hlt
      rw [getD_drop] at hnb
      have heq : j + 1 + (k - (j + 1)) = k := by omega
      rwa [heq] at hnb
    · intro hlt
      have hoff : insertionOffset lvl (lines.drop (j + 1)) < (lines.drop (j + 1)).length := by
        rw [List.length_drop]
        omega
      have hb := insertionOffset_boundary lvl (lines.drop (j + 1)) hoff
      rw [getD_drop] at hb
      have heq : j + 1 + insertionOffset lvl (lines.drop (j + 1)) = ip := by omega
      rwa [heq] at hb
  · unfold append_todo_to_file
    rw [hal]
    simp only [hh, Option.getD_some]
    rw [hc, h]
    have htr : truthyStr (some target) = true := by simp [truthyStr, hne]
    simp [htr]

/-- Witness for C3's amended theorem on a file with a deeper subheading
followed by a sibling heading. -/
theorem heading_search_characterization_witness :
    (append_todo_to_file (some "* Tasks\n** sub\n* Next\n") "U"
      { title := "x", heading := some "Tasks" }).file =
    some "* Tasks\n** sub\n\n** TODO x\n:PROPERTIES:\n:ID: U\n:END:\n\n* Next\n" := by
  have h := heading_search_characterization ["* Tasks\n", "** sub\n", "* Next\n"]
    "Tasks" 2 1 "* Tasks\n** sub\n* Next\n" "U"
    { title := "x", heading := some "Tasks" }
    [":PROPERTIES:", ":ID: U", ":END:"] (by decide) (by decide) rfl (by decide) rfl
  exact h.2.trans (by decide)

/-! ### Splice spacing (claim C5) -/

/-- The splice written by the matched-heading path, with its two blank-line
conditions made explicit. -/
theorem spliceLines_eq (lines : List String) (ip : Nat) (tl : List String) :
    spliceLines lines ip tl =
      lines.take ip
      ++ (if 0 < ip ∧ pyStrip (lines.getD (ip - 1) "") = "" then [] else ["\n"])
      ++ tl.map (fun l => l ++ "\n")
      ++ (if ip < lines.length ∧ pyStrip (lines.getD ip "") = "" then [] else ["\n"])
      ++ lines.drop ip := by
  unfold spliceLines
  by_cases h1 : 0 < ip <;> by_cases h2 : pyStrip (lines.getD (ip - 1) "") = "" <;>
    by_cases h3 : ip < lines.length <;> by_cases h4 : pyStrip (lines.getD ip "") = "" <;>
    simp [h1, h2, h3, h4]

/-- Claim C5 (corrected): counterexample. With two blank lines already before
the insertion point the code adds none, so the spliced-in block ends up
preceded by TWO blank lines, not exactly one: the written file's lines 1
and 2 are both blank and the entry starts at line 3. -/
theorem double_blank_preserved :
    (append_todo_to_file (some "* H\n\n\n") "U" { title := "x", heading := some "H" }).file
      = some "* H\n\n\n** TODO x\n:PROPERTIES:\n:ID: U\n:END:\n\n"
    ∧ pyReadlines "* H\n\n\n** TODO x\n:PROPERTIES:\n:ID: U\n:END:\n\n" =
        ["* H\n", "\n", "\n", "** TODO x\n", ":PROPERTIES:\n", ":ID: U\n", ":END:\n", "\n"]
    ∧ pyStrip "\n" = "" :=
  ⟨by decide, by decide, by decide⟩

/-- Claim C5 (amended). When the target heading is matched, the new file is
the old lines with the entry's lines spliced in at the insertion point;
one blank line is added immediately before the block iff the line just
before the insertion point is absent or non-blank, and one blank line is
added immediately after iff the insertion point is at end-of-file or the
line at the insertion point is non-blank — pre-existing consecutive blank
lines are left in place, so the block is preceded (followed) by at least
one, but not always exactly one, blank line. -/
theorem matched_splice_spacing (c uuid : String) (f : Fields) (target : String)
    (ip lvl : Nat) (al : List String)
    (hh : f.heading = some target) (hne : target ≠ "")
    (hal : additionalLinesE f uuid = .ok al)
    (h : find_heading_insertion_point (pyReadlines c) target = some (ip, lvl)) :
    (append_todo_to_file (some c) uuid f).file =
      some (String.join
        ((pyReadlines c).take ip
          ++ (if 0 < ip ∧ pyStrip ((pyReadlines c).getD (ip - 1) "") = "" then []
              else ["\n"])
          ++ (pySplitNl (renderTodoTextWith (starRepeat (lvl + 1)) f al)).map
              (fun l => l ++ "\n")
          ++ (if ip < (pyReadlines c).length ∧ pyStrip ((pyReadlines c).getD ip "") = ""
              then [] else ["\n"])
          ++ (pyReadlines c).drop ip)) := by
  unfold append_todo_to_file
  rw [hal]
  simp only [hh, Option.getD_some]
  rw [h]
  have htr : truthyStr (some target) = true := by simp [truthyStr, hne]
  simp [htr, spliceLines_eq]

/-- Witness for C5's amended theorem: non-blank lines on both sides of the
insertion point get exactly one blank line before and after the block. -/
theorem matched_splice_spacing_witness :
    (append_todo_to_file (some "* H\nx\n") "W" { title := "y", heading := some "H" }).file =
    some "* H\nx\n\n** TODO y\n:PROPERTIES:\n:ID: W\n:END:\n\n" := by
  have h := matched_splice_spacing "* H\nx\n" "W" { title := "y", heading := some "H" }
    "H" 2 1 [":PROPERTIES:", ":ID: W", ":END:"] rfl (by decide) rfl (by decide)
  exact h.trans (by decide)

/-! ### The heading-not-found block (claim C2) -/

/-- Claim C2 (corrected): counterexample. The heading-not-found path DOES
emit the properties drawer (the claim says it must not): the block written
for an unmatched heading contains the `:PROPERTIES:`/`:ID:`/`:END:` lines. -/
theorem notfound_block_contains_drawer :
    (append_todo_to_file none "U" { title := "x", heading := some "H" }).file =
      some "\n* H\n\n** TODO x\n:PROPERTIES:\n:ID: U\n:END:\n"
    ∧ strContains "\n* H\n\n** TODO x\n:PROPERTIES:\n:ID: U\n:END:\n" ":PROPERTIES:" = true
    ∧ strContains "\n* H\n\n** TODO x\n:PROPERTIES:\n:ID: U\n:END:\n" ":ID: U" = true :=
  ⟨by decide, by decide, by decide⟩

/-- Claim C2 (amended). When the heading is not found, the file receives a
newline separator followed by one block consisting of a level-1 heading
line for the heading, a blank line, and a level-2 entry carrying state,
priority, title, tags, and then the SAME additional lines as the normal
render path — the scheduling line AND the properties drawer with the
injected identifier — followed by the body; the block ends with a newline. -/
theorem notfound_block_format (content : Option String) (uuid : String) (f : Fields)
    (target : String) (al : List String)
    (hh : f.heading = some target) (hne : target ≠ "")
    (hal : additionalLinesE f uuid = .ok al)
    (hnf : find_heading_insertion_point
      (match content with
       | some c0 => pyReadlines c0
       | none => []) target = none) :
    (append_todo_to_file content uuid f).file =
      some ((content.getD "") ++ "\n" ++ headingNotFoundText target f al ++ "\n")
    ∧ headingNotFoundText target f al =
        "* " ++ target ++ "\n\n" ++ renderTodoTextWith "**" f al
    ∧ (append_todo_to_file content uuid f).result =
        .ok (renderTodoTextWith "*" f al, uuid) := by
  refine ⟨?_, ?_, ?_⟩
  · unfold append_todo_to_file
    rw [hal]
    simp only [hh, Option.getD_some]
    rw [hnf]
    have htr : truthyStr (some target) = true := by simp [truthyStr, hne]
    simp [htr]
  · apply String.ext
    unfold headingNotFoundText renderTodoTextWith buildTodoLine todoParts
    by_cases hp : truthyStr f.priority = true <;> by_cases htg : f.tags ≠ [] <;>
      by_cases ha : al ≠ [] <;> by_cases hb : truthyStr f.body = true <;>
      simp [hp, htg, ha, hb, String.intercalate, String.intercalate.go,
        List.append_assoc]
  · unfold append_todo_to_file
    rw [hal]

/-- Witness for C2's amended theorem on an absent file. -/
theorem notfound_block_format_witness :
    (append_todo_to_file none "U" { title := "x", heading := some "Projects" }).file =
      some "\n* Projects\n\n** TODO x\n:PROPERTIES:\n:ID: U\n:END:\n"
    ∧ headingNotFoundText "Projects" { title := "x", heading := some "Projects" }
        [":PROPERTIES:", ":ID: U", ":END:"] =
      "* " ++ "Projects" ++ "\n\n"
        ++ renderTodoTextWith "**" { title := "x", heading := some "Projects" }
            [":PROPERTIES:", ":ID: U", ":END:"] := by
  have h := notfound_block_format none "U" { title := "x", heading := some "Projects" }
    "Projects" [":PROPERTIES:", ":ID: U", ":END:"] rfl (by decide) rfl (by decide)
  exact ⟨h.1.trans (by decide), h.2.1⟩

/-! ### Returned versus written block (claim C1) -/

/-- Claim C1 (code_bug). The function documents its return value as the text
that was appended, and the spec promises the exact text block written; but
in heading mode the call returns the level-1 rendering while the file
receives a different block. At this input the heading `Work` is matched at
level 1, the file receives the re-rendered level-2 block
`** TODO task ...`, yet the call returns `* TODO task ...`. -/
theorem returned_block_differs_from_written :
    (append_todo_to_file (some "* Work\n") "U"
      { title := "task", heading := some "Work" }).result =
      .ok ("* TODO task\n:PROPERTIES:\n:ID: U\n:END:", "U")
    ∧ (append_todo_to_file (some "* Work\n") "U"
        { title := "task", heading := some "Work" }).file =
      some "* Work\n\n** TODO task\n:PROPERTIES:\n:ID: U\n:END:\n\n"
    ∧ renderTodoTextWith (starRepeat 2) { title := "task", heading := some "Work" }
        [":PROPERTIES:", ":ID: U", ":END:"] =
      "** TODO task\n:PROPERTIES:\n:ID: U\n:END:"
    ∧ "* TODO task\n:PROPERTIES:\n:ID: U\n:END:" ≠
        "** TODO task\n:PROPERTIES:\n:ID: U\n:END:" :=
  ⟨rfl, by decide, by decide, by decide⟩

/-! ### Dict lemmas and the properties drawer (claim C4) -/

theorem dictLookup_dictSet (d : List (String × String)) (k v key : String) :
    dictLookup (dictSet d k v) key =
      if k = key then some v else dictLookup d key := by
  induction d with
  | nil => simp [dictSet, dictLookup]
  | cons kv rest ih =>
    obtain ⟨k', v'⟩ := kv
    by_cases hk : k' = k
    · subst hk
      by_cases hkey : k' = key <;> simp [dictSet, dictLookup, hkey]
    · by_cases hkey : k' = key
      · subst hkey
        have : ¬ (k = k') := fun hc => hk hc.symm
        simp [dictSet, dictLookup, hk, this]
      · simp [dictSet, dictLookup, hk, hkey, ih]

theorem dictSet_lookup_self (d : List (String × String)) (k v : String) :
    dictLookup (dictSet d k v) k = some v := by
  rw [dictLookup_dictSet]
  simp

theorem mem_dictSet (d : List (String × String)) (k v : String) (p : String × String)
    (h : p ∈ dictSet d k v) : p = (k, v) ∨ p ∈ d := by
  induction d with
  | nil => simpa [dictSet] using h
  | cons kv rest ih =>
    obtain ⟨k', v'⟩ := kv
    by_cases hk : k' = k
    · subst hk
      rw [dictSet, if_pos rfl] at h
      rcases List.mem_cons.1 h with h0 | h0
      · exact Or.inl h0
      · exact Or.inr (List.mem_cons_of_mem _ h0)
    · rw [dictSet, if_neg hk] at h
      rcases List.mem_cons.1 h with h0 | h0
      · exact Or.inr (h0 ▸ List.mem_cons_self ..)
      · rcases ih h0 with h1 | h1
        · exact Or.inl h1
        · exact Or.inr (List.mem_cons_of_mem _ h1)

theorem mem_foldl_upper (l : List (String × String)) :
    ∀ (acc : List (String × String)) (p : String × String),
      p ∈ l.foldl (fun a kv => dictSet a (pyUpper kv.1) kv.2) acc →
      p ∈ acc ∨ ∃ kv0, kv0 ∈ l ∧ p = (pyUpper kv0.1, kv0.2) := by
  induction l with
  | nil =>
    intro acc p h
    exact Or.inl h
  | cons kv rest ih =>
    intro acc p h
    simp only [List.foldl_cons] at h
    rcases ih _ p h with hacc | ⟨kv0, hmem, hp⟩
    · rcases mem_dictSet _ _ _ _ hacc with heq | hin
      · exact Or.inr ⟨kv, List.mem_cons_self .., heq⟩
      · exact Or.inl hin
    · exact Or.inr ⟨kv0, List.mem_cons_of_mem _ hmem, hp⟩

theorem foldl_upper_lookup (key : String) (l : List (String × String)) :
    ∀ acc, dictLookup (l.foldl (fun a kv => dictSet a (pyUpper kv.1) kv.2) acc) key =
      match lastUpperVal key l with
      | some w => some w
      | none => dictLookup acc key := by
  induction l with
  | nil => intro acc; simp [lastUpperVal]
  | cons kv rest ih =>
    intro acc
    simp only [List.foldl_cons]
    rw [ih]
    cases hrest : lastUpperVal key rest with
    | some w => simp [lastUpperVal, hrest]
    | none =>
      simp only [lastUpperVal, hrest]
      rw [dictLookup_dictSet]
      by_cases hk : pyUpper kv.1 = key <;> simp [hk]

theorem lastUpperVal_none (key : String) (l : List (String × String))
    (h : ∀ kv ∈ l, pyUpper kv.1 ≠ key) : lastUpperVal key l = none := by
  induction l with
  | nil => rfl
  | cons kv rest ih =>
    rw [lastUpperVal, ih (fun kv0 hm => h kv0 (List.mem_cons_of_mem _ hm))]
    simp [h kv (List.mem_cons_self ..)]

theorem lastUpperVal_dictSet_ID (props : List (String × String)) (uuid : String)
    (hnodup : (props.map Prod.fst).Nodup)
    (hids : ∀ kv ∈ props, pyUpper kv.1 = "ID" → kv.1 = "ID") :
    lastUpperVal "ID" (dictSet props "ID" uuid) = some uuid := by
  induction props with
  | nil => simp [dictSet, lastUpperVal, show pyUpper "ID" = "ID" from rfl]
  | cons kv rest ih =>
    obtain ⟨k, v⟩ := kv
    by_cases hk : k = "ID"
    · subst hk
      rw [dictSet, if_pos rfl, lastUpperVal]
      have hrest : lastUpperVal "ID" rest = none := by
        apply lastUpperVal_none
        intro kv0 hm hup
        have hkid : kv0.1 = "ID" := hids kv0 (List.mem_cons_of_mem _ hm) hup
        have hin : kv0.1 ∈ rest.map Prod.fst := List.mem_map_of_mem _ hm
        rw [hkid] at hin
        rw [List.map_cons, List.nodup_cons] at hnodup
        exact hnodup.1 hin
      rw [hrest]
      simp [show pyUpper "ID" = "ID" from rfl]
    · rw [dictSet, if_neg hk, lastUpperVal]
      have htail : lastUpperVal "ID" (dictSet rest "ID" uuid) = some uuid := by
        apply ih
        · rw [List.map_cons, List.nodup_cons] at hnodup
          exact hnodup.2
        · exact fun kv0 hm hup => hids kv0 (List.mem_cons_of_mem _ hm) hup
      rw [htail]

/-- Claim C4 (corrected): counterexample. The renderer does NOT copy the
caller's mapping: injecting the identifier mutates the caller-owned dict
in place. Moreover, with both an `ID` and a lower-case `id` key present,
the caller's `id` value survives upper-casing and overrides the injected
identifier in the drawer. -/
theorem caller_props_mutated :
    (append_todo_to_file none "U"
      { title := "x", properties := [("ID", "old"), ("id", "y")] }).props =
      [("ID", "U"), ("id", "y")]
    ∧ [("ID", "U"), ("id", "y")] ≠ [("ID", "old"), ("id", "y")]
    ∧ (append_todo_to_file none "U"
        { title := "x", properties := [("ID", "old"), ("id", "y")] }).file =
      some "* TODO x\n:PROPERTIES:\n:ID: y\n:END:\n"
    ∧ strContains "* TODO x\n:PROPERTIES:\n:ID: y\n:END:\n" ":ID: U" = false :=
  ⟨by decide, by decide, by decide, by decide⟩

/-- Claim C4 (amended). The drawer is rendered from the caller's properties
mapping with the generated identifier stored under key `ID` (replacing an
existing `ID` entry in place, else appended) and every key upper-cased;
before upper-casing the mapping's `ID` entry holds the generated value, and
when no distinct key of the mapping upper-cases to `ID` (and keys are
unique, as in a Python dict) the drawer's `ID` value is the generated one;
every drawer entry's key is the upper-casing of an entry of the updated
mapping. The caller-owned mapping itself is mutated in place by the
injection when non-empty; an empty (falsy) mapping is replaced by a fresh
dict and left unchanged. -/
theorem drawer_construction (content : Option String) (f : Fields) (uuid : String)
    (al : List String)
    (hal : additionalLinesE f uuid = .ok al)
    (hnodup : (f.properties.map Prod.fst).Nodup)
    (hids : ∀ kv ∈ f.properties, pyUpper kv.1 = "ID" → kv.1 = "ID") :
    drawerLines f.properties uuid =
      ":PROPERTIES:" ::
        ((upperDict (dictSet f.properties "ID" uuid)).map
          (fun kv => ":" ++ kv.1 ++ ": " ++ kv.2) ++ [":END:"])
    ∧ dictLookup (dictSet f.properties "ID" uuid) "ID" = some uuid
    ∧ (∀ kv ∈ upperDict (dictSet f.properties "ID" uuid),
        ∃ kv0, kv0 ∈ dictSet f.properties "ID" uuid
          ∧ kv.1 = pyUpper kv0.1 ∧ kv.2 = kv0.2)
    ∧ dictLookup (upperDict (dictSet f.properties "ID" uuid)) "ID" = some uuid
    ∧ (append_todo_to_file content uuid f).props =
        (if f.properties = [] then f.properties else dictSet f.properties "ID" uuid)
    ∧ (f.properties = [] → (append_todo_to_file content uuid f).props = f.properties) := by
  refine ⟨rfl, dictSet_lookup_self .., ?_, ?_, ?_, ?_⟩
  · intro kv hm
    rcases mem_foldl_upper _ [] kv hm with h0 | ⟨kv0, hmem, hp⟩
    · cases h0
    · exact ⟨kv0, hmem, by rw [hp], by rw [hp]⟩
  · unfold upperDict
    rw [foldl_upper_lookup, lastUpperVal_dictSet_ID f.properties uuid hnodup hids]
  · unfold append_todo_to_file
    rw [hal]
  · intro h0
    unfold append_todo_to_file
    rw [hal]
    simp [h0]

/-- Witness for C4's amended theorem at a one-entry caller mapping. -/
theorem drawer_construction_witness :
    dictLookup (upperDict (dictSet [("x", "1")] "ID" "W")) "ID" = some "W"
    ∧ (append_todo_to_file none "W"
        { title := "t", properties := [("x", "1")] }).props = [("x", "1"), ("ID", "W")] := by
  have h := drawer_construction none { title := "t", properties := [("x", "1")] } "W"
    [":PROPERTIES:", ":X: 1", ":ID: W", ":END:"] rfl (by decide) (by decide)
  exact ⟨h.2.2.2.1, (h.2.2.2.2.1).trans (by decide)⟩

end OrgBridge
